import Mathlib

/-!
# The echo example of webtransport-go

A shallow embedding of `examples/echo/main.go` (the server's HTTP handler,
`runClient`, `checkErr`) and of `examples/echo/certgen/generate_cert.go`.

The transport library, the file system and the crypto library are outside the
repository.  A run of a function is modelled as a pure function of an
*environment* that fixes what each external call returns; the run yields the
sequence of externally visible events (transport calls and writes to the
standard streams) in program order, and how the function ended (it returned,
or the process exited with a status).
-/

namespace Echo

/-! ## Values -/

/-- Go `[]byte` and Go `string` are both finite byte sequences. -/
abbrev Bytes := List UInt8

/-- The bytes of a string literal of the source.  Every literal of the two
source files is ASCII, so each character is the one byte of its code point. -/
def lit (s : String) : Bytes := s.toList.map (fun c => UInt8.ofNat c.toNat)

/-- A non-nil Go `error`, known by the text its `Error()` method returns.
A Go `error` that may be nil is an `Option GoError`. -/
structure GoError where
  Error : Bytes
deriving DecidableEq

/-- The one field of `tls.Config` the program sets. -/
structure TLSConfig where
  InsecureSkipVerify : Bool
deriving DecidableEq

/-! ## Events and runs -/

/-- An externally visible step of `main.go`: one call of a transport operation,
or one call that writes to standard output or standard error (with the bytes
written). -/
inductive Event where
  | stdout (p : Bytes)
  | stderr (p : Bytes)
  | Upgrade
  | AcceptStream
  | ReadAll
  | Write (p : Bytes)
  | Close
  | Dial (cfg : TLSConfig) (url : Bytes)
  | OpenStreamSync
  | ListenAndServeTLS (certPath keyPath : Bytes)
deriving DecidableEq

/-- How a function ended: it returned to its caller, or `os.Exit` ended the
process with a status. -/
inductive Outcome where
  | returned
  | exited (code : Nat)
deriving DecidableEq

/-- The events of a run, in program order, and how it ended. -/
structure Run (E : Type) where
  trace : List E
  outcome : Outcome
deriving DecidableEq

/-- Go `return` (or the end of the function body). -/
def Run.ret {E : Type} : Run E := ⟨[], Outcome.returned⟩

/-- Go `os.Exit(code)`: nothing after it runs. -/
def os.Exit {E : Type} (code : Nat) : Run E := ⟨[], Outcome.exited code⟩

/-- One event, then the rest of the run. -/
def Run.emit {E : Type} (e : E) (k : Run E) : Run E := ⟨e :: k.trace, k.outcome⟩

/-- Go `fmt.Println(s)` for one string operand: `s` and a newline. -/
def fmt.Println (s : Bytes) (k : Run Event) : Run Event :=
  Run.emit (Event.stdout (s ++ lit "\n")) k

/-- Go `fmt.Printf(pre + "%v\n", err)` for a constant, `%`-free `pre` and a
non-nil error operand: `%v` prints the text of `err.Error()`. -/
def fmt.PrintfErr (pre : Bytes) (err : GoError) (k : Run Event) : Run Event :=
  Run.emit (Event.stdout (pre ++ err.Error ++ lit "\n")) k

/-- Go `fmt.Printf(pre + "%s\n", s)` for a constant, `%`-free `pre` and a
string operand. -/
def fmt.PrintfStr (pre : Bytes) (s : Bytes) (k : Run Event) : Run Event :=
  Run.emit (Event.stdout (pre ++ s ++ lit "\n")) k

/-! ## The server's handler (`main.go`, lines 45-82) -/

/-- What the transport returns to the handler of one request. -/
structure ServerEnv where
  /-- The `err` of `wtServer.Upgrade(w, r)`. -/
  Upgrade : Option GoError
  /-- The `err` of `wtSession.AcceptStream(ctx)`. -/
  AcceptStream : Option GoError
  /-- The `(bytes, err)` of `io.ReadAll(stream)`. -/
  ReadAll : Bytes × Option GoError
  /-- The `(n, err)` of `stream.Write(p)`, for each `p`. -/
  Write : Bytes → Nat × Option GoError
  /-- The `err` of `stream.Close()`. -/
  Close : Option GoError

/-- The function literal passed to `http.HandleFunc("/", ...)` in `runServer`. -/
def handler (env : ServerEnv) : Run Event :=
  fmt.Println (lit "Server: Received a request") <|
  Run.emit Event.Upgrade <|
  match env.Upgrade with
  | some err => fmt.PrintfErr (lit "Server: Upgrade error: ") err <| Run.ret
  | none =>
  fmt.Println (lit "Server: Upgraded to WebTransport") <|
  Run.emit Event.AcceptStream <|
  match env.AcceptStream with
  | some err => fmt.PrintfErr (lit "Server: AcceptStream error: ") err <| Run.ret
  | none =>
  fmt.Println (lit "Server: Accepted stream") <|
  Run.emit Event.ReadAll <|
  match env.ReadAll with
  | (_, some err) => fmt.PrintfErr (lit "Server: ReadAll error: ") err <| Run.ret
  | (bytes, none) =>
  fmt.Println (lit "From client: " ++ bytes) <|
  Run.emit (Event.Write bytes) <|
  match (env.Write bytes).2 with
  | some err => fmt.PrintfErr (lit "Server: Write error: ") err <| Run.ret
  | none =>
  fmt.Println (lit "Server: Wrote response") <|
  Run.emit Event.Close <|
  match env.Close with
  | some err => fmt.PrintfErr (lit "Server: Close error: ") err <| Run.ret
  | none =>
  fmt.Println (lit "Server: Closed stream") <|
  Run.ret

/-! ## `runClient` (`main.go`, lines 89-141) -/

/-- What the transport returns to `runClient`. -/
structure ClientEnv where
  /-- The `err` of `d.Dial(ctx, url, nil)` for a dialer with the given TLS
  configuration. -/
  Dial : TLSConfig → Bytes → Option GoError
  /-- The `err` of `wtSession.OpenStreamSync(ctx)`. -/
  OpenStreamSync : Option GoError
  /-- The `(n, err)` of `stream.Write(p)`, for each `p`. -/
  Write : Bytes → Nat × Option GoError
  /-- The `err` of `stream.Close()`. -/
  Close : Option GoError
  /-- The `(bytes, err)` of `io.ReadAll(stream)`. -/
  ReadAll : Bytes × Option GoError

/-- The value `runClient` assigns to `d.TLSClientConfig` (lines 94-96). -/
def runClient.TLSClientConfig : TLSConfig := TLSConfig.mk true

/-- The `url` of `runClient` (line 98). -/
def runClient.url (domain : Bytes) : Bytes := lit "https://" ++ domain ++ lit ":8443"

/-- The `message` of `runClient` (line 115). -/
def runClient.message : Bytes := lit "Hi there"

/-- Go `runClient(domain)`. -/
def runClient (domain : Bytes) (env : ClientEnv) : Run Event :=
  fmt.Println (lit "Client: Setting up...") <|
  fmt.PrintfStr (lit "Client: Connecting to ") (runClient.url domain) <|
  Run.emit (Event.Dial runClient.TLSClientConfig (runClient.url domain)) <|
  match env.Dial runClient.TLSClientConfig (runClient.url domain) with
  | some err => fmt.PrintfErr (lit "Client: Dial error: ") err <| os.Exit 1
  | none =>
  fmt.Println (lit "Client: Connected") <|
  Run.emit Event.OpenStreamSync <|
  match env.OpenStreamSync with
  | some err => fmt.PrintfErr (lit "Client: OpenStreamSync error: ") err <| os.Exit 1
  | none =>
  fmt.Println (lit "Client: Opened stream") <|
  fmt.PrintfStr (lit "Client: Sending message: ") runClient.message <|
  Run.emit (Event.Write runClient.message) <|
  match (env.Write runClient.message).2 with
  | some err => fmt.PrintfErr (lit "Client: Write error: ") err <| os.Exit 1
  | none =>
  fmt.Println (lit "Client: Sent message") <|
  Run.emit Event.Close <|
  match env.Close with
  | some err => fmt.PrintfErr (lit "Client: Close error: ") err <| os.Exit 1
  | none =>
  fmt.Println (lit "Client: Closed stream (send side)") <|
  Run.emit Event.ReadAll <|
  match env.ReadAll with
  | (_, some err) => fmt.PrintfErr (lit "Client: ReadAll error: ") err <| os.Exit 1
  | (bytes, none) =>
  fmt.Println (lit "Client: Received response") <|
  fmt.Println (lit "From server: " ++ bytes) <|
  Run.ret

/-- The three string flags `main` declares (lines 19-21). -/
structure Flags where
  domain : Bytes
  certPath : Bytes
  keyPath : Bytes
deriving DecidableEq

/-- The default values `main` gives its flags: `flag.String("domain",
"localhost", ...)`, `flag.String("cert-path", "", ...)`,
`flag.String("key-path", "", ...)`. -/
def main.flagDefaults : Flags := Flags.mk (lit "localhost") (lit "") (lit "")

/-! ## `fmt.Fprintf` with a format string and no operands

`checkErr` calls `fmt.Fprintf(os.Stderr, err.Error())`: the error text is the
*format string* and the operand list is empty.  What follows is the path of
the Go standard library's `fmt.(*pp).doPrintf` for an empty operand list
(`len(a) = 0`), with the helpers it calls.  The format is consumed from the
left: a position `i` of the Go code is the suffix `format[i:]` here.
-/

/-- Go `utf8.RuneError`, U+FFFD. -/
def utf8.RuneError : Nat := 0xFFFD

/-- Go `utf8.first`: for a first byte, `0xF0` (ASCII), `0xF1` (invalid), or
the size of the sequence in the low three bits and the index of the accept
range of the second byte in the high four. -/
def utf8.first (b : UInt8) : Nat :=
  if b < 0x80 then 0xF0
  else if b < 0xC2 then 0xF1
  else if b < 0xE0 then 0x02
  else if b = 0xE0 then 0x13
  else if b < 0xED then 0x03
  else if b = 0xED then 0x23
  else if b < 0xF0 then 0x03
  else if b = 0xF0 then 0x34
  else if b < 0xF4 then 0x04
  else if b = 0xF4 then 0x44
  else 0xF1

/-- Go `utf8.acceptRanges`: the lowest and highest second byte allowed. -/
def utf8.acceptRanges (i : Nat) : UInt8 × UInt8 :=
  match i with
  | 0 => (0x80, 0xBF)
  | 1 => (0xA0, 0xBF)
  | 2 => (0x80, 0x9F)
  | 3 => (0x90, 0xBF)
  | 4 => (0x80, 0x8F)
  | _ => (0, 0)

/-- Whether the byte is a UTF-8 continuation byte, `0x80 <= c <= 0xBF`. -/
def utf8.isCont (c : UInt8) : Bool := 0x80 ≤ c && c ≤ 0xBF

/-- Go `utf8.DecodeRuneInString(s)`: the first rune of `s` and its width in
bytes; `(RuneError, 1)` for an encoding that is not valid, `(RuneError, 0)`
for the empty string. -/
def utf8.DecodeRuneInString (s : Bytes) : Nat × Nat :=
  match s with
  | [] => (utf8.RuneError, 0)
  | s0 :: t =>
    let x := utf8.first s0
    if x ≥ 0xF0 then
      (if x = 0xF0 then s0.toNat else utf8.RuneError, 1)
    else
      let sz := x % 8
      let accept := utf8.acceptRanges (x / 16)
      if s.length < sz then (utf8.RuneError, 1)
      else
        match t with
        | [] => (utf8.RuneError, 1)
        | s1 :: t1 =>
          if s1 < accept.1 || accept.2 < s1 then (utf8.RuneError, 1)
          else if sz ≤ 2 then ((s0.toNat % 32) * 64 + s1.toNat % 64, 2)
          else
            match t1 with
            | [] => (utf8.RuneError, 1)
            | s2 :: t2 =>
              if !utf8.isCont s2 then (utf8.RuneError, 1)
              else if sz ≤ 3 then
                ((s0.toNat % 16) * 4096 + (s1.toNat % 64) * 64 + s2.toNat % 64, 3)
              else
                match t2 with
                | [] => (utf8.RuneError, 1)
                | s3 :: _ =>
                  if !utf8.isCont s3 then (utf8.RuneError, 1)
                  else
                    ((s0.toNat % 8) * 262144 + (s1.toNat % 64) * 4096
                      + (s2.toNat % 64) * 64 + s3.toNat % 64, 4)

/-- Go `utf8.AppendRune(nil, r)` for a rune `r >= 0`: the UTF-8 encoding of
`r`, that of `RuneError` for a surrogate or a value above U+10FFFF. -/
def utf8.AppendRune (r : Nat) : Bytes :=
  let enc3 (r : Nat) : Bytes :=
    [UInt8.ofNat (0xE0 + r / 4096), UInt8.ofNat (0x80 + r / 64 % 64),
      UInt8.ofNat (0x80 + r % 64)]
  if r ≤ 0x7F then [UInt8.ofNat r]
  else if r ≤ 0x7FF then [UInt8.ofNat (0xC0 + r / 64), UInt8.ofNat (0x80 + r % 64)]
  else if r > 0x10FFFF || (0xD800 ≤ r && r ≤ 0xDFFF) then enc3 utf8.RuneError
  else if r ≤ 0xFFFF then enc3 r
  else
    [UInt8.ofNat (0xF0 + r / 262144), UInt8.ofNat (0x80 + r / 4096 % 64),
      UInt8.ofNat (0x80 + r / 64 % 64), UInt8.ofNat (0x80 + r % 64)]

/-- Go `fmt.tooLarge`: the magnitude is too large for a width or precision. -/
def fmt.tooLarge (x : Nat) : Bool := x > 1000000

/-- The loop of Go `fmt.parsenum` over `s[newi:end]`, with the `num` and
`isnum` so far: the number, whether one was read, and what is left of the
segment (nothing after an overflow, where Go returns `end`). -/
def fmt.parsenumLoop : Bytes → Nat → Bool → Nat × Bool × Bytes
  | [], num, isnum => (num, isnum, [])
  | c :: s, num, isnum =>
    if 48 ≤ c && c ≤ 57 then
      if fmt.tooLarge num then (0, false, [])
      else fmt.parsenumLoop s (num * 10 + (c.toNat - 48)) true
    else (num, isnum, c :: s)

/-- Go `fmt.parsenum(s, start, end)` on the segment `s[start:end]`. -/
def fmt.parsenum (seg : Bytes) : Nat × Bool × Bytes := fmt.parsenumLoop seg 0 false

/-- Go `fmt.parseArgNumber(format)`, where `format` starts with `[`: the index
(the bracketed number minus one), the number of bytes to consume, and whether
the number parsed. -/
def fmt.parseArgNumber (format : Bytes) : Int × Nat × Bool :=
  if format.length < 3 then (0, 1, false)
  else
    let body := format.drop 1
    let n := body.indexOf 93
    if n < body.length then
      -- the closing bracket is `format[n + 1]`
      let (width, ok, rest) := fmt.parsenum (body.take n)
      if !ok || rest ≠ [] then (0, n + 2, false)
      else ((width : Int) - 1, n + 2, true)
    else (0, 1, false)

/-- The state `doPrintf` carries through one verb: the operand number, the
rest of the format, `afterIndex`, and `p.goodArgNum`. -/
structure fmt.VerbState where
  argNum : Nat
  rest : Bytes
  afterIndex : Bool
  goodArgNum : Bool

/-- Go `p.argNumber(argNum, format, i, numArgs)`, which also clears
`p.goodArgNum` when the bracketed index is not usable. -/
def fmt.argNumber (st : fmt.VerbState) (numArgs : Nat) : fmt.VerbState :=
  match st.rest with
  | 91 :: _ =>
    let (index, wid, ok) := fmt.parseArgNumber st.rest
    if ok && decide (0 ≤ index) && decide (index < numArgs) then
      fmt.VerbState.mk index.toNat (st.rest.drop wid) true st.goodArgNum
    else
      fmt.VerbState.mk st.argNum (st.rest.drop wid) ok false
  | _ => fmt.VerbState.mk st.argNum st.rest false st.goodArgNum

/-- The flag characters `#`, `0`, `+`, `-` and space. -/
def fmt.isFlag (c : UInt8) : Bool := c == 35 || c == 48 || c == 43 || c == 45 || c == 32

/-- Go `p.badArgNum(verb)`. -/
def fmt.badArgNum (verb : Nat) : Bytes := lit "%!" ++ utf8.AppendRune verb ++ lit "(BADINDEX)"

/-- Go `p.missingArg(verb)`. -/
def fmt.missingArg (verb : Nat) : Bytes := lit "%!" ++ utf8.AppendRune verb ++ lit "(MISSING)"

/-- The width part of a verb, with no operands: `*` asks for an operand that
is not there (`%!(BADWIDTH)`), digits are skipped. The bytes written and the
new state. -/
def fmt.width (st : fmt.VerbState) : Bytes × fmt.VerbState :=
  match st.rest with
  | 42 :: s => (lit "%!(BADWIDTH)", fmt.VerbState.mk st.argNum s false st.goodArgNum)
  | s =>
    let (_, widPresent, s1) := fmt.parsenum s
    ([], fmt.VerbState.mk st.argNum s1 st.afterIndex
      (if st.afterIndex && widPresent then false else st.goodArgNum))

/-- The precision part of a verb, with no operands. -/
def fmt.precision (st : fmt.VerbState) : Bytes × fmt.VerbState :=
  match st.rest with
  | 46 :: s =>
    let st1 := fmt.argNumber
      (fmt.VerbState.mk st.argNum s st.afterIndex
        (if st.afterIndex then false else st.goodArgNum)) 0
    match st1.rest with
    | 42 :: s1 => (lit "%!(BADPREC)", fmt.VerbState.mk st1.argNum s1 false st1.goodArgNum)
    | s1 =>
      let (_, _, s2) := fmt.parsenum s1
      ([], fmt.VerbState.mk st1.argNum s2 st1.afterIndex st1.goodArgNum)
  | _ => ([], st)

/-- The body of the `formatLoop` of Go `doPrintf` for `len(a) = 0`, run at
most `fuel` times: the bytes written for `format`. -/
def fmt.doPrintf : Nat → Bytes → Bytes
  | 0, _ => []
  | fuel + 1, format =>
    let plain := format.takeWhile (fun c => c != 37)
    match format.dropWhile (fun c => c != 37) with
    | [] => plain
    | _ :: s =>
      let st0 := fmt.argNumber (fmt.VerbState.mk 0 (s.dropWhile fmt.isFlag) false true) 0
      let (w, st1) := fmt.width st0
      let (p, st2) := fmt.precision st1
      let st3 := if !st2.afterIndex then fmt.argNumber st2 0 else st2
      match st3.rest with
      | [] => plain ++ w ++ p ++ lit "%!(NOVERB)"
      | c :: t =>
        let (verb, size) :=
          if c.toNat ≥ 0x80 then utf8.DecodeRuneInString (c :: t) else (c.toNat, 1)
        let out :=
          if verb = 37 then lit "%"
          else if !st3.goodArgNum then fmt.badArgNum verb
          else fmt.missingArg verb
        plain ++ w ++ p ++ out ++ fmt.doPrintf fuel ((c :: t).drop size)

/-- Go `fmt.Sprintf(format)` with no operands; `fmt.Fprintf(w, format)` writes
these bytes to `w`. Each turn of the loop consumes a byte, so
`format.length + 1` turns are enough. -/
def fmt.Sprintf (format : Bytes) : Bytes := fmt.doPrintf (format.length + 1) format

/-! ## `checkErr` and `runServer` (`main.go`, lines 34-87 and 143-148) -/

/-- Go `checkErr(err)`: `fmt.Fprintf(os.Stderr, err.Error())`, then
`os.Exit(1)`, when `err` is not nil. -/
def checkErr (err : Option GoError) : Run Event :=
  match err with
  | some e =>
    Run.emit (Event.stderr (fmt.Sprintf e.Error)) <|
    os.Exit 1
  | none => Run.ret

/-- Go `runServer(certPath, keyPath)`, seen from its own goroutine: it
registers the handler (no event), announces the listener and calls
`ListenAndServeTLS`, which serves requests until it returns `listenErr`. -/
def runServer (certPath keyPath : Bytes) (listenErr : Option GoError) : Run Event :=
  fmt.Println (lit "Server: Setting up...") <|
  Run.emit (Event.stdout (lit "Server: Listening on port 8443 with cert " ++ certPath
    ++ lit " and key " ++ keyPath ++ lit "\n")) <|
  Run.emit (Event.ListenAndServeTLS certPath keyPath) <|
  checkErr listenErr

/-! ## The certificate generator (`certgen/generate_cert.go`) -/

namespace certgen

/-- Go `rsa.PublicKey`. -/
structure rsa.PublicKey where
  N : Nat
  E : Nat
deriving DecidableEq

/-- Go `rsa.PrivateKey`: the public key it embeds and the private exponent. -/
structure rsa.PrivateKey where
  PublicKey : rsa.PublicKey
  D : Nat
deriving DecidableEq

/-- Go `x509.KeyUsage` is a bit mask; `KeyUsageDigitalSignature` is bit 0. -/
def x509.KeyUsageDigitalSignature : Nat := 1

/-- Go `x509.KeyUsageKeyEncipherment` is bit 2 of the mask. -/
def x509.KeyUsageKeyEncipherment : Nat := 4

/-- Go `x509.ExtKeyUsage`, in the order of the constants of `crypto/x509`. -/
inductive x509.ExtKeyUsage where
  | ExtKeyUsageAny
  | ExtKeyUsageServerAuth
  | ExtKeyUsageClientAuth
  | ExtKeyUsageCodeSigning
  | ExtKeyUsageEmailProtection
  | ExtKeyUsageIPSECEndSystem
  | ExtKeyUsageIPSECTunnel
  | ExtKeyUsageIPSECUser
  | ExtKeyUsageTimeStamping
  | ExtKeyUsageOCSPSigning
  | ExtKeyUsageMicrosoftServerGatedCrypto
  | ExtKeyUsageNetscapeServerGatedCrypto
  | ExtKeyUsageMicrosoftCommercialCodeSigning
  | ExtKeyUsageMicrosoftKernelCodeSigning
deriving DecidableEq

/-- The field of Go `pkix.Name` the generator sets. -/
structure pkix.Name where
  CommonName : Bytes
deriving DecidableEq

/-- The fields of Go `x509.Certificate` the generator sets; times are
nanoseconds since the epoch. -/
structure x509.Certificate where
  SerialNumber : Int
  Subject : pkix.Name
  DNSNames : List Bytes
  NotBefore : Int
  NotAfter : Int
  KeyUsage : Nat
  ExtKeyUsage : List x509.ExtKeyUsage
  BasicConstraintsValid : Bool
deriving DecidableEq

/-- Go `time.Hour`, in nanoseconds. -/
def time.Hour : Int := 3600 * 1000000000

/-- An externally visible step of the generator: a call into the crypto
library or the file system, or a line handed to the standard logger. -/
inductive Event where
  | GenerateKey (bits : Nat)
  | CreateCertificate (template parent : x509.Certificate) (pub : rsa.PublicKey)
      (priv : rsa.PrivateKey)
  | Create (name : Bytes)
  | Encode (file : Bytes) (blockType : Bytes) (bytes : Bytes)
  | Close (file : Bytes)
  | log (msg : Bytes)
deriving DecidableEq

/-- What the libraries return to the generator. -/
structure Env where
  /-- The result of `rsa.GenerateKey(rand.Reader, 2048)`. -/
  GenerateKey : Except GoError rsa.PrivateKey
  /-- The value of the first (`0`) and second (`1`) call of `time.Now()`. -/
  Now : Nat → Int
  /-- The result of `x509.CreateCertificate(rand.Reader, template, parent, pub, priv)`. -/
  CreateCertificate :
    x509.Certificate → x509.Certificate → rsa.PublicKey → rsa.PrivateKey → Except GoError Bytes
  /-- The `err` of `os.Create(name)`. -/
  Create : Bytes → Option GoError
  /-- The `err` of `pem.Encode(file, &pem.Block{Type, Bytes})`. -/
  Encode : Bytes → Bytes → Bytes → Option GoError
  /-- The `err` of `file.Close()`. -/
  Close : Bytes → Option GoError
  /-- The value of `x509.MarshalPKCS1PrivateKey(key)`. -/
  MarshalPKCS1PrivateKey : rsa.PrivateKey → Bytes

/-- Go `log.Fatalf(pre + "%v", err)`: the message goes to the standard logger
and the process exits with status 1. -/
def log.Fatalf (pre : Bytes) (err : GoError) : Run Event :=
  Run.emit (Event.log (pre ++ err.Error)) <|
  os.Exit 1

/-- The certificate template of `main` (lines 23-34), for the two readings
of the clock. -/
def main.template (now0 now1 : Int) : x509.Certificate :=
  x509.Certificate.mk
    1
    (pkix.Name.mk (lit "localhost"))
    [lit "localhost", lit "example.com"]
    now0
    (now1 + 365 * 24 * time.Hour)
    (x509.KeyUsageKeyEncipherment ||| x509.KeyUsageDigitalSignature)
    [x509.ExtKeyUsage.ExtKeyUsageServerAuth]
    true

/-- Go `main()` of `generate_cert.go`. -/
def main (env : Env) : Run Event :=
  Run.emit (Event.GenerateKey 2048) <|
  match env.GenerateKey with
  | Except.error err => log.Fatalf (lit "Failed to generate private key: ") err
  | Except.ok privateKey =>
  let template := main.template (env.Now 0) (env.Now 1)
  Run.emit (Event.CreateCertificate template template privateKey.PublicKey privateKey) <|
  match env.CreateCertificate template template privateKey.PublicKey privateKey with
  | Except.error err => log.Fatalf (lit "Failed to create certificate: ") err
  | Except.ok derBytes =>
  Run.emit (Event.Create (lit "../cert.pem")) <|
  match env.Create (lit "../cert.pem") with
  | some err => log.Fatalf (lit "Failed to open cert.pem for writing: ") err
  | none =>
  Run.emit (Event.Encode (lit "../cert.pem") (lit "CERTIFICATE") derBytes) <|
  match env.Encode (lit "../cert.pem") (lit "CERTIFICATE") derBytes with
  | some err => log.Fatalf (lit "Failed to write data to cert.pem: ") err
  | none =>
  Run.emit (Event.Close (lit "../cert.pem")) <|
  match env.Close (lit "../cert.pem") with
  | some err => log.Fatalf (lit "Error closing cert.pem: ") err
  | none =>
  Run.emit (Event.log (lit "Wrote cert.pem\n")) <|
  Run.emit (Event.Create (lit "../key.pem")) <|
  match env.Create (lit "../key.pem") with
  | some err => log.Fatalf (lit "Failed to open key.pem for writing: ") err
  | none =>
  let privBytes := env.MarshalPKCS1PrivateKey privateKey
  Run.emit (Event.Encode (lit "../key.pem") (lit "RSA PRIVATE KEY") privBytes) <|
  match env.Encode (lit "../key.pem") (lit "RSA PRIVATE KEY") privBytes with
  | some err => log.Fatalf (lit "Failed to write data to key.pem: ") err
  | none =>
  Run.emit (Event.Close (lit "../key.pem")) <|
  match env.Close (lit "../key.pem") with
  | some err => log.Fatalf (lit "Error closing key.pem: ") err
  | none =>
  Run.emit (Event.log (lit "Wrote key.pem\n")) <|
  Run.ret

/-- The arguments of the `x509.CreateCertificate` calls of a trace. -/
def createCalls :
    List Event → List (x509.Certificate × x509.Certificate × rsa.PublicKey × rsa.PrivateKey)
  | [] => []
  | Event.CreateCertificate t p pub priv :: l => (t, p, pub, priv) :: createCalls l
  | _ :: l => createCalls l

end certgen

/-! ## Observations of a trace -/

/-- Whether the event is a transport call (not a write to a standard stream). -/
def Event.isOp : Event → Bool
  | Event.stdout _ => false
  | Event.stderr _ => false
  | _ => true

/-- The transport calls of a trace, in order. -/
def ops (t : List Event) : List Event := t.filter Event.isOp

/-- The arguments of the `stream.Write` calls of a trace, in order. -/
def writes : List Event → List Bytes
  | [] => []
  | Event.Write p :: t => p :: writes t
  | _ :: t => writes t

/-- What the calls that print to standard output wrote, one entry a call. -/
def stdoutLines : List Event → List Bytes
  | [] => []
  | Event.stdout p :: t => p :: stdoutLines t
  | _ :: t => stdoutLines t

/-- The number of the first step of the handler's sequence to fail
(1 Upgrade, 2 AcceptStream, 3 ReadAll, 4 Write of the bytes read, 5 Close),
or `none` when none fails. -/
def ServerEnv.firstFailure (env : ServerEnv) : Option Nat :=
  if env.Upgrade.isSome then some 1
  else if env.AcceptStream.isSome then some 2
  else if env.ReadAll.2.isSome then some 3
  else if (env.Write env.ReadAll.1).2.isSome then some 4
  else if env.Close.isSome then some 5
  else none

/-- The five steps of the handler's sequence, for the bytes `b` read. -/
def serverSteps (b : Bytes) : List Event :=
  [Event.Upgrade, Event.AcceptStream, Event.ReadAll, Event.Write b, Event.Close]

/-- The error the `k`-th step of the handler's sequence returns, if any. -/
def ServerEnv.stepError (env : ServerEnv) : Nat → Option GoError
  | 1 => env.Upgrade
  | 2 => env.AcceptStream
  | 3 => env.ReadAll.2
  | 4 => (env.Write env.ReadAll.1).2
  | 5 => env.Close
  | _ => none

/-- The five steps of `runClient`, for the `domain` it is called with. -/
def clientSteps (domain : Bytes) : List Event :=
  [Event.Dial runClient.TLSClientConfig (runClient.url domain), Event.OpenStreamSync,
    Event.Write runClient.message, Event.Close, Event.ReadAll]

/-- The error the `k`-th step of `runClient` returns, if any
(1 Dial, 2 OpenStreamSync, 3 Write, 4 Close, 5 ReadAll). -/
def ClientEnv.stepError (env : ClientEnv) (domain : Bytes) : Nat → Option GoError
  | 1 => env.Dial runClient.TLSClientConfig (runClient.url domain)
  | 2 => env.OpenStreamSync
  | 3 => (env.Write runClient.message).2
  | 4 => env.Close
  | 5 => env.ReadAll.2
  | _ => none

/-- The number of the first step of `runClient` to fail, or `none`. -/
def ClientEnv.firstFailure (env : ClientEnv) (domain : Bytes) : Option Nat :=
  if (env.stepError domain 1).isSome then some 1
  else if (env.stepError domain 2).isSome then some 2
  else if (env.stepError domain 3).isSome then some 3
  else if (env.stepError domain 4).isSome then some 4
  else if (env.stepError domain 5).isSome then some 5
  else none

/-- The TLS configuration and URL of each `Dial` call of a trace. -/
def dials : List Event → List (TLSConfig × Bytes)
  | [] => []
  | Event.Dial cfg url :: t => (cfg, url) :: dials t
  | _ :: t => dials t

/-- A server environment in which every step succeeds and `ReadAll` returns `b`. -/
def okServerEnv (b : Bytes) : ServerEnv :=
  ServerEnv.mk none none (b, none) (fun p => (p.length, none)) none

/-- A client environment in which every step succeeds and `ReadAll` returns `b`. -/
def okClientEnv (b : Bytes) : ClientEnv :=
  ClientEnv.mk (fun _ _ => none) none (fun p => (p.length, none)) none (b, none)

/-- A server environment whose `ReadAll` fails with the text "reset" after
the bytes `b`. -/
def readFailServerEnv (b : Bytes) : ServerEnv :=
  ServerEnv.mk none none (b, some (GoError.mk (lit "reset"))) (fun p => (p.length, none)) none

/-- Whether no `e` occurs in the trace before the first `c`. -/
def guardedBy (c e : Event) : List Event → Bool
  | [] => true
  | x :: t => if x = c then true else if x = e then false else guardedBy c e t

/-- The error line of a step: the role, the operation that failed, and the
text of the error. -/
def errLine (role op : String) (e : GoError) : Bytes :=
  lit role ++ lit ": " ++ lit op ++ lit " error: " ++ e.Error ++ lit "\n"

/-- The name of the operation of the `k`-th step of the handler. -/
def serverOpName : Nat → String
  | 1 => "Upgrade"
  | 2 => "AcceptStream"
  | 3 => "ReadAll"
  | 4 => "Write"
  | _ => "Close"

/-- The name of the operation of the `k`-th step of `runClient`. -/
def clientOpName : Nat → String
  | 1 => "Dial"
  | 2 => "OpenStreamSync"
  | 3 => "Write"
  | 4 => "Close"
  | _ => "ReadAll"

/-- Whether the line `l` starts with the bytes `pre`. -/
def startsWith : Bytes → Bytes → Bool
  | [], _ => true
  | a :: as, l =>
    match l with
    | [] => false
    | b :: bs => a == b && startsWith as bs

/-- Whether some line starts with the bytes `pre`. -/
def anyStartsWith (pre : Bytes) (lines : List Bytes) : Bool :=
  lines.any (fun l => startsWith pre l)

/-- A client environment whose `Close` fails with the text "closed". -/
def closeFailClientEnv : ClientEnv :=
  ClientEnv.mk (fun _ _ => none) none (fun p => (p.length, none))
    (some (GoError.mk (lit "closed"))) ([], none)

/-- The operations an error line can name. -/
def opNames : List String :=
  ["Upgrade", "AcceptStream", "ReadAll", "Write", "Close", "Dial", "OpenStreamSync"]

/-- Whether the line has the form `<Server|Client>: <operation> error: <text>`. -/
def isErrorLine (l : Bytes) : Bool :=
  ["Server", "Client"].any fun role =>
    opNames.any fun op => startsWith (lit role ++ lit ": " ++ lit op ++ lit " error: ") l

/-- The lines the handler prints because step `k` succeeded, when the bytes
read are `b`. -/
def serverSuccessLines (b : Bytes) : Nat → List Bytes
  | 1 => [lit "Server: Upgraded to WebTransport\n"]
  | 2 => [lit "Server: Accepted stream\n"]
  | 3 => [lit "From client: " ++ b ++ lit "\n"]
  | 4 => [lit "Server: Wrote response\n"]
  | 5 => [lit "Server: Closed stream\n"]
  | _ => []

/-- The lines `runClient` prints because step `k` succeeded, when the bytes
read are `b`. -/
def clientSuccessLines (b : Bytes) : Nat → List Bytes
  | 1 => [lit "Client: Connected\n"]
  | 2 => [lit "Client: Opened stream\n"]
  | 3 => [lit "Client: Sent message\n"]
  | 4 => [lit "Client: Closed stream (send side)\n"]
  | 5 => [lit "Client: Received response\n", lit "From server: " ++ b ++ lit "\n"]
  | _ => []

/-- A server environment whose `Write` fails with the text "50% sent". -/
def writeFailServerEnv (b : Bytes) : ServerEnv :=
  ServerEnv.mk none none (b, none) (fun _ => (0, some (GoError.mk (lit "50% sent")))) none

/-- The bytes a run sent on the stream before it closed its send side. -/
def sentBeforeClose : List Event → Bytes
  | [] => []
  | Event.Write p :: t => p ++ sentBeforeClose t
  | Event.Close :: _ => []
  | _ :: t => sentBeforeClose t

/-- An ideal stream between a run of `runClient` and a run of the handler: no
operation fails on either side, and the read-to-end of each side returns
exactly the bytes the other side wrote before it closed its send side. -/
structure IdealStream (domain : Bytes) (cenv : ClientEnv) (senv : ServerEnv) : Prop where
  clientOk : cenv.firstFailure domain = none
  serverOk : senv.firstFailure = none
  serverReads : senv.ReadAll.1 = sentBeforeClose (runClient domain cenv).trace
  clientReads : cenv.ReadAll.1 = sentBeforeClose (handler senv).trace

/-- A generator environment in which every call succeeds. -/
def certgen.okEnv : certgen.Env :=
  certgen.Env.mk (Except.ok (certgen.rsa.PrivateKey.mk (certgen.rsa.PublicKey.mk 3233 17) 413))
    (fun i => 1000 + i) (fun _ _ _ _ => Except.ok [48, 130]) (fun _ => none)
    (fun _ _ _ => none) (fun _ => none) (fun _ => [48, 131])

/-! ## Theorems -/

/-! ### Shared lemmas -/

/-- When no `e` occurs before the first `c`, every `e` of the trace comes after
a `c`. -/
theorem mem_pre_of_guardedBy (c e : Event) (t : List Event) (hne : e ≠ c)
    (hg : guardedBy c e t = true) (pre post : List Event) (h : t = pre ++ e :: post) :
    c ∈ pre := by
  induction t generalizing pre with
  | nil => simp at h
  | cons x t ih =>
    cases pre with
    | nil =>
      simp at h
      simp [guardedBy, h.1, hne] at hg
    | cons a pre =>
      simp at h
      obtain ⟨hxa, ht⟩ := h
      by_cases hx : x = c
      · simp [← hxa, hx]
      · have hg2 : guardedBy c e t = true := by
          by_cases hxe : x = e
          · subst hxe
            simp [guardedBy, hx] at hg
          · simpa [guardedBy, hx, hxe] using hg
        exact List.mem_cons_of_mem _ (ih hg2 pre ht)

/-- The Boolean test `startsWith` decides the prefix relation. -/
theorem startsWith_iff_prefix (pre l : Bytes) : startsWith pre l = true ↔ pre <+: l := by
  induction pre generalizing l with
  | nil => simp [startsWith]
  | cons a as ih =>
    cases l with
    | nil => simp [startsWith]
    | cons b bs => simp [startsWith, ih, List.cons_prefix_cons]

/-- A line that the Boolean membership test rejects is not in the list. -/
theorem not_mem_of_elem_false (l : Bytes) (lines : List Bytes)
    (h : List.elem l lines = false) : l ∉ lines := by
  intro hm
  rw [List.elem_eq_mem, decide_eq_false_iff_not] at h
  exact h hm

/-- The handler returns in every run: no path of it exits the process. -/
theorem handler_returns (env : ServerEnv) : (handler env).outcome = Outcome.returned := by
  obtain ⟨u, a, ⟨b, r⟩, w, c⟩ := env
  cases u <;> cases a <;> cases r <;> cases hw : (w b).2 <;> cases c <;>
    simp only [handler, hw] <;> rfl

/-- Each of the five steps of the handler can be the first to fail. -/
theorem handler_firstFailure_reachable (k : Nat) (h1 : 1 ≤ k) (h5 : k ≤ 5) :
    ∃ env : ServerEnv, env.firstFailure = some k := by
  have e : GoError := GoError.mk []
  interval_cases k
  · exact ⟨ServerEnv.mk (some e) none ([], none) (fun _ => (0, none)) none, rfl⟩
  · exact ⟨ServerEnv.mk none (some e) ([], none) (fun _ => (0, none)) none, rfl⟩
  · exact ⟨ServerEnv.mk none none ([], some e) (fun _ => (0, none)) none, rfl⟩
  · exact ⟨ServerEnv.mk none none ([], none) (fun _ => (0, some e)) none, rfl⟩
  · exact ⟨ServerEnv.mk none none ([], none) (fun _ => (0, none)) (some e), rfl⟩

/-- Each of the five steps of `runClient` can be the first to fail. -/
theorem runClient_firstFailure_reachable (domain : Bytes) (k : Nat) (h1 : 1 ≤ k)
    (h5 : k ≤ 5) : ∃ env : ClientEnv, env.firstFailure domain = some k := by
  have e : GoError := GoError.mk []
  interval_cases k
  · exact ⟨ClientEnv.mk (fun _ _ => some e) none (fun _ => (0, none)) none ([], none), rfl⟩
  · exact ⟨ClientEnv.mk (fun _ _ => none) (some e) (fun _ => (0, none)) none ([], none), rfl⟩
  · exact ⟨ClientEnv.mk (fun _ _ => none) none (fun _ => (0, some e)) none ([], none), rfl⟩
  · exact ⟨ClientEnv.mk (fun _ _ => none) none (fun _ => (0, none)) (some e) ([], none), rfl⟩
  · exact ⟨ClientEnv.mk (fun _ _ => none) none (fun _ => (0, none)) none ([], some e), rfl⟩

/-- The success lines are the lines of the code: a run of the handler without
failure prints the line for the request and then the success lines of steps 1
to 5. -/
theorem handler_success_lines (env : ServerEnv) (h : env.firstFailure = none) :
    stdoutLines (handler env).trace
      = lit "Server: Received a request\n" ::
        (serverSuccessLines env.ReadAll.1 1 ++ serverSuccessLines env.ReadAll.1 2
          ++ serverSuccessLines env.ReadAll.1 3 ++ serverSuccessLines env.ReadAll.1 4
          ++ serverSuccessLines env.ReadAll.1 5) := by
  obtain ⟨u, a, ⟨b, r⟩, w, c⟩ := env
  revert h
  cases u <;> cases a <;> cases r <;> cases hw : (w b).2 <;> cases c <;>
    simp only [ServerEnv.firstFailure, hw, Option.isSome_none, Option.isSome_some, if_true,
      if_false, Bool.false_eq_true, reduceCtorEq, false_implies]
  intro _
  simp only [handler, hw]
  rfl

/-- The success lines are the lines of the code: a run of `runClient` without
failure prints its two opening lines, the success lines of steps 1 and 2, the
line that announces the message, and the success lines of steps 3 to 5. -/
theorem runClient_success_lines (domain : Bytes) (env : ClientEnv)
    (h : env.firstFailure domain = none) :
    stdoutLines (runClient domain env).trace
      = [lit "Client: Setting up...\n",
          lit "Client: Connecting to " ++ runClient.url domain ++ lit "\n"]
        ++ clientSuccessLines env.ReadAll.1 1 ++ clientSuccessLines env.ReadAll.1 2
        ++ [lit "Client: Sending message: Hi there\n"]
        ++ clientSuccessLines env.ReadAll.1 3 ++ clientSuccessLines env.ReadAll.1 4
        ++ clientSuccessLines env.ReadAll.1 5 := by
  obtain ⟨d, o, w, c, ⟨b, r⟩⟩ := env
  revert h
  cases hd : d runClient.TLSClientConfig (runClient.url domain) <;> cases o <;>
    cases hw : (w runClient.message).2 <;> cases c <;> cases r <;>
    simp only [ClientEnv.firstFailure, ClientEnv.stepError, hd, hw, Option.isSome_none,
      Option.isSome_some, if_true, if_false, Bool.false_eq_true, reduceCtorEq,
      false_implies]
  intro _
  simp only [runClient, hd, hw]
  rfl

/-- Every run of `runClient` has one `Dial`, with the configuration and URL that
`runClient` builds. -/
theorem dials_runClient (domain : Bytes) (env : ClientEnv) :
    dials (runClient domain env).trace
      = [(runClient.TLSClientConfig, runClient.url domain)] := by
  obtain ⟨d, o, w, c, ⟨b, r⟩⟩ := env
  cases hd : d runClient.TLSClientConfig (runClient.url domain) <;> cases o <;>
    cases hw : (w runClient.message).2 <;> cases c <;> cases r <;>
    simp [runClient, hd, hw, fmt.Println, fmt.PrintfErr,
      fmt.PrintfStr, Run.emit, Run.ret, os.Exit, dials]

/-! ### The server handler -/

/-- C1: echo identity. When Upgrade, AcceptStream, ReadAll and Write succeed and
ReadAll returned the bytes `b` (empty or not), the handler calls `stream.Write`
exactly once, and its argument is `b`. -/
theorem handler_echo_identity (env : ServerEnv) (b : Bytes)
    (hU : env.Upgrade = none) (hA : env.AcceptStream = none)
    (hR : env.ReadAll = (b, none)) (hW : (env.Write b).2 = none) :
    writes (handler env).trace = [b] := by
  cases hC : env.Close <;>
    simp [handler, hU, hA, hR, hW, hC, fmt.Println, fmt.PrintfErr, Run.emit, Run.ret, writes]

/-- The handler echoes the empty byte sequence as the empty byte sequence. -/
theorem handler_echo_identity_witness :
    writes (handler (okServerEnv [])).trace = [[]] :=
  handler_echo_identity (okServerEnv []) [] rfl rfl rfl rfl

/-- C2: sequence and single-stream exclusivity. When no step fails the transport
calls of the handler are exactly Upgrade, AcceptStream, ReadAll, Write (of the
bytes read), Close, in this order, once each; in every run AcceptStream is
called at most once and Write at most once. -/
theorem handler_sequence (env : ServerEnv) :
    (env.firstFailure = none → ops (handler env).trace = serverSteps env.ReadAll.1) ∧
    (ops (handler env).trace).count Event.AcceptStream ≤ 1 ∧
    (writes (handler env).trace).length ≤ 1 := by
  obtain ⟨u, a, ⟨b, r⟩, w, c⟩ := env
  cases u <;> cases a <;> cases r <;> cases hw : (w b).2 <;> cases c <;>
    simp [handler, ServerEnv.firstFailure, serverSteps, hw, fmt.Println, fmt.PrintfErr,
      Run.emit, Run.ret, writes, ops, Event.isOp, List.count_cons]

/-- A run without failure performs the five steps. -/
theorem handler_sequence_witness :
    ops (handler (okServerEnv [7])).trace = serverSteps [7] :=
  (handler_sequence (okServerEnv [7])).1 rfl

/-- C3: failure isolation. When step `k` (1 Upgrade, 2 AcceptStream, 3 ReadAll,
4 Write, 5 Close) is the first to fail, the transport calls of the handler are
exactly the first `k` steps; the handler returns (it never exits the process);
and when it is Close that fails, the Write of the bytes read has been made. -/
theorem handler_failure_isolation (env : ServerEnv) (k : Nat)
    (hk : env.firstFailure = some k) :
    1 ≤ k ∧ k ≤ 5 ∧
    ops (handler env).trace = (serverSteps env.ReadAll.1).take k ∧
    (handler env).outcome = Outcome.returned ∧
    (k = 5 → writes (handler env).trace = [env.ReadAll.1]) := by
  obtain ⟨u, a, ⟨b, r⟩, w, c⟩ := env
  revert hk
  cases u <;> cases a <;> cases r <;> cases hw : (w b).2 <;> cases c <;>
    simp [handler, ServerEnv.firstFailure, serverSteps, hw, fmt.Println, fmt.PrintfErr,
      Run.emit, Run.ret, writes, ops, Event.isOp] <;>
    (intro hk; subst hk; simp)

/-- A ReadAll failure: Upgrade, AcceptStream and ReadAll are called, nothing is
written, the stream is not closed, and the handler returns. -/
theorem handler_failure_isolation_witness :
    ops (handler (readFailServerEnv [1, 2])).trace
        = [Event.Upgrade, Event.AcceptStream, Event.ReadAll] ∧
      (handler (readFailServerEnv [1, 2])).outcome = Outcome.returned :=
  have h := handler_failure_isolation (readFailServerEnv [1, 2]) 3 (by decide)
  ⟨h.2.2.1, h.2.2.2.1⟩

/-! ### The client -/

/-- C4: client sequence with half-close before read. When no step fails the
transport calls of `runClient` are exactly Dial, OpenStreamSync, Write, Close,
ReadAll, in this order, once each. In every run a ReadAll comes after a Close,
and only when Close returned no error; a Close comes after the Write of the
message, and only when Write returned no error. -/
theorem runClient_sequence (domain : Bytes) (env : ClientEnv) :
    (env.firstFailure domain = none →
      ops (runClient domain env).trace = clientSteps domain) ∧
    (∀ pre post, (runClient domain env).trace = pre ++ Event.ReadAll :: post →
      Event.Close ∈ pre) ∧
    (Event.ReadAll ∈ (runClient domain env).trace → env.Close = none) ∧
    (∀ pre post, (runClient domain env).trace = pre ++ Event.Close :: post →
      Event.Write runClient.message ∈ pre) ∧
    (Event.Close ∈ (runClient domain env).trace →
      (env.Write runClient.message).2 = none) := by
  refine ⟨?_, fun pre post h => mem_pre_of_guardedBy _ _ _ (by simp) ?_ pre post h, ?_,
    fun pre post h => mem_pre_of_guardedBy _ _ _ (by simp) ?_ pre post h, ?_⟩ <;>
  obtain ⟨d, o, w, c, ⟨b, r⟩⟩ := env <;>
  cases hd : d runClient.TLSClientConfig (runClient.url domain) <;> cases o <;>
    cases hw : (w runClient.message).2 <;> cases c <;> cases r <;>
    simp [runClient, ClientEnv.firstFailure, ClientEnv.stepError, clientSteps, hd, hw,
      fmt.Println, fmt.PrintfErr, fmt.PrintfStr, Run.emit, Run.ret, os.Exit, ops,
      Event.isOp, guardedBy]

/-- A run without failure performs the five client steps. -/
theorem runClient_sequence_witness :
    ops (runClient (lit "localhost") (okClientEnv [])).trace = clientSteps (lit "localhost") :=
  (runClient_sequence (lit "localhost") (okClientEnv [])).1 (by decide)

/-- C5: client fatal errors. When step `k` (1 Dial, 2 OpenStreamSync, 3 Write,
4 Close, 5 ReadAll) is the first to return an error, `runClient` ends the process
with exit status 1, its transport calls are exactly the first `k` steps, the last
thing it prints is the error line of that step, and no line it prints starts
with "From server: ". It returns (without exiting) exactly when no step fails,
and otherwise the exit status is 1. -/
theorem runClient_fatal_errors (domain : Bytes) (env : ClientEnv) :
    (∀ k, env.firstFailure domain = some k →
      1 ≤ k ∧ k ≤ 5 ∧
      (runClient domain env).outcome = Outcome.exited 1 ∧
      ops (runClient domain env).trace = (clientSteps domain).take k ∧
      (∃ e, env.stepError domain k = some e ∧
        (stdoutLines (runClient domain env).trace).getLast?
          = some (errLine "Client" (clientOpName k) e)) ∧
      anyStartsWith (lit "From server: ") (stdoutLines (runClient domain env).trace) = false) ∧
    ((runClient domain env).outcome = Outcome.returned ↔ env.firstFailure domain = none) ∧
    ((runClient domain env).outcome = Outcome.returned ∨
      (runClient domain env).outcome = Outcome.exited 1) := by
  obtain ⟨d, o, w, c, ⟨b, r⟩⟩ := env
  cases hd : d runClient.TLSClientConfig (runClient.url domain) <;> cases o <;>
    cases hw : (w runClient.message).2 <;> cases c <;> cases r <;>
    simp [runClient, ClientEnv.firstFailure, ClientEnv.stepError, clientSteps, hd, hw,
      fmt.Println, fmt.PrintfErr, fmt.PrintfStr, Run.emit, Run.ret, os.Exit, ops,
      Event.isOp, stdoutLines, errLine, clientOpName] <;>
    exact ⟨rfl, rfl⟩

/-- Exit status 1 after a failing Close. -/
theorem runClient_fatal_errors_witness :
    (runClient (lit "localhost") closeFailClientEnv).outcome = Outcome.exited 1 :=
  ((runClient_fatal_errors (lit "localhost") closeFailClientEnv).1 4 (by decide)).2.2.1

/-! ### Client and server together -/

/-- C6: end-to-end round trip. Over an ideal stream, `runClient` writes the 8
bytes "Hi there" (in one Write), the handler prints "From client: Hi there",
the bytes the client's ReadAll returns are the bytes it wrote, the client prints
"From server: Hi there", and both sides return. -/
theorem round_trip (domain : Bytes) (cenv : ClientEnv) (senv : ServerEnv)
    (h : IdealStream domain cenv senv) :
    writes (runClient domain cenv).trace = [lit "Hi there"] ∧
    (lit "Hi there").length = 8 ∧
    Event.stdout (lit "From client: Hi there\n") ∈ (handler senv).trace ∧
    [cenv.ReadAll.1] = writes (runClient domain cenv).trace ∧
    Event.stdout (lit "From server: Hi there\n") ∈ (runClient domain cenv).trace ∧
    (runClient domain cenv).outcome = Outcome.returned ∧
    (handler senv).outcome = Outcome.returned := by
  obtain ⟨hc, hs, hsr, hcr⟩ := h
  obtain ⟨d, o, w, c, ⟨b, r⟩⟩ := cenv
  obtain ⟨u, a, ⟨b2, r2⟩, w2, c2⟩ := senv
  revert hc hs hsr hcr
  cases hd : d runClient.TLSClientConfig (runClient.url domain) <;> cases o <;>
    cases hw : (w runClient.message).2 <;> cases c <;> cases r <;>
    simp only [ClientEnv.firstFailure, ClientEnv.stepError, hd, hw, Option.isSome_none,
      Option.isSome_some, if_true, if_false, Bool.false_eq_true, reduceCtorEq,
      false_implies]
  intro _
  cases u <;> cases a <;> cases r2 <;> cases hw2 : (w2 b2).2 <;> cases c2 <;>
    simp only [ServerEnv.firstFailure, hw2, Option.isSome_none,
      Option.isSome_some, if_true, if_false, Bool.false_eq_true, reduceCtorEq,
      false_implies]
  intro _ hsr hcr
  simp only [runClient, hd, hw, handler, hw2, fmt.Println, fmt.PrintfStr, Run.emit, Run.ret,
    sentBeforeClose, List.append_nil] at hsr hcr
  subst hsr
  subst hcr
  simp only [runClient, hd, hw, handler, hw2, fmt.Println, fmt.PrintfStr, Run.emit, Run.ret,
    writes]
  refine ⟨rfl, by decide, ?_, trivial, ?_, trivial, trivial⟩
  · have e : lit "From client: Hi there\n" = lit "From client: " ++ runClient.message ++ lit "\n" := by
      decide
    rw [e]
    simp
  · have e : lit "From server: Hi there\n" = lit "From server: " ++ runClient.message ++ lit "\n" := by
      decide
    rw [e]
    simp

/-- The ideal stream exists: both sides succeed and read "Hi there". -/
theorem round_trip_witness :
    Event.stdout (lit "From server: Hi there\n")
      ∈ (runClient (lit "localhost") (okClientEnv (lit "Hi there"))).trace :=
  (round_trip (lit "localhost") (okClientEnv (lit "Hi there")) (okServerEnv (lit "Hi there"))
    ⟨by decide, by decide, by decide, by decide⟩).2.2.2.2.1

/-! ### The trust policy of the client -/

/-- C7, as the code has it: every run of `runClient` calls `Dial` exactly once,
and the TLS configuration of that call has `InsecureSkipVerify = true`, whatever
the `domain` and whatever the transport returns. -/
theorem runClient_always_skips_verification (domain : Bytes) (env : ClientEnv) :
    dials (runClient domain env).trace = [(TLSConfig.mk true, runClient.url domain)] :=
  dials_runClient domain env

/-- C7, as the claim has it, fails: no input of `runClient` (no `domain`, no
behaviour of the transport) leads to a `Dial` whose TLS configuration verifies
the certificate. -/
theorem trust_policy_not_opt_in :
    ¬ ∃ (domain : Bytes) (env : ClientEnv),
      ∃ c ∈ dials (runClient domain env).trace, c.1.InsecureSkipVerify = false := by
  rintro ⟨domain, env, c, hc, hf⟩
  rw [dials_runClient] at hc
  simp at hc
  simp [hc, runClient.TLSClientConfig] at hf

/-! ### Error reports -/

/-- C8: error reports. When step `k` of the handler (of `runClient`) is the
first to fail, with error `e`: the last line printed is
`Server: <operation> error: <text of e>` (`Client: ...`), with the operation of
step `k` and the text of `e` unchanged; it is the only printed line of the form
`<Server|Client>: <operation> error: ...`; and no success line of step `k` or
of a later step is printed. -/
theorem error_reports :
    (∀ (env : ServerEnv) (k : Nat) (e : GoError),
      env.firstFailure = some k → env.stepError k = some e →
      (stdoutLines (handler env).trace).getLast?
          = some (errLine "Server" (serverOpName k) e) ∧
        (stdoutLines (handler env).trace).countP isErrorLine = 1 ∧
        ∀ j, k ≤ j → j ≤ 5 → ∀ b l, l ∈ serverSuccessLines b j →
          l ∉ stdoutLines (handler env).trace) ∧
    (∀ (domain : Bytes) (env : ClientEnv) (k : Nat) (e : GoError),
      env.firstFailure domain = some k → env.stepError domain k = some e →
      (stdoutLines (runClient domain env).trace).getLast?
          = some (errLine "Client" (clientOpName k) e) ∧
        (stdoutLines (runClient domain env).trace).countP isErrorLine = 1 ∧
        ∀ j, k ≤ j → j ≤ 5 → ∀ b l, l ∈ clientSuccessLines b j →
          l ∉ stdoutLines (runClient domain env).trace) := by
  constructor
  · intro env k e hk he
    obtain ⟨u, a, ⟨b, r⟩, w, c⟩ := env
    revert hk he
    cases u <;> cases a <;> cases r <;> cases hw : (w b).2 <;> cases c <;>
      simp only [ServerEnv.firstFailure, ServerEnv.stepError, hw, Option.isSome_none,
        Option.isSome_some, if_true, if_false, Bool.false_eq_true, reduceCtorEq,
        false_implies, Option.some.injEq] <;>
      intro hk <;> subst hk <;>
      simp only [ServerEnv.stepError, hw, Option.some.injEq] <;>
      intro he <;> subst he <;>
      simp only [handler, hw] <;>
      refine ⟨rfl, rfl, ?_⟩ <;>
      intro j hj1 hj2 b2 l hl <;>
      interval_cases j <;>
      simp only [serverSuccessLines, List.mem_singleton] at hl <;>
      subst hl <;>
      exact not_mem_of_elem_false _ _ rfl
  · intro domain env k e hk he
    obtain ⟨d, o, w, c, ⟨b, r⟩⟩ := env
    revert hk he
    cases hd : d runClient.TLSClientConfig (runClient.url domain) <;> cases o <;>
      cases hw : (w runClient.message).2 <;> cases c <;> cases r <;>
      simp only [ClientEnv.firstFailure, ClientEnv.stepError, hd, hw, Option.isSome_none,
        Option.isSome_some, if_true, if_false, Bool.false_eq_true, reduceCtorEq,
        false_implies, Option.some.injEq] <;>
      intro hk <;> subst hk <;>
      simp only [ClientEnv.stepError, hd, hw, Option.some.injEq] <;>
      intro he <;> subst he <;>
      simp only [runClient, hd, hw] <;>
      refine ⟨rfl, rfl, ?_⟩ <;>
      intro j hj1 hj2 b2 l hl <;>
      interval_cases j <;>
      simp only [clientSuccessLines, List.mem_singleton, List.mem_cons, List.mem_nil_iff,
        or_false] at hl <;>
      (first | subst hl | (rcases hl with hl | hl <;> subst hl)) <;>
      exact not_mem_of_elem_false _ _ rfl

/-- A failing Write whose error text holds a `%`: the text is printed as it is. -/
theorem error_reports_witness :
    (stdoutLines (handler (writeFailServerEnv [1])).trace).getLast?
      = some (lit "Server: Write error: 50% sent\n") :=
  (error_reports.1 (writeFailServerEnv [1]) 4 (GoError.mk (lit "50% sent"))
    (by decide) (by decide)).1

/-! ### The certificate generator -/

/-- C9: issued certificate shape. When the key is generated, the generator
calls `x509.CreateCertificate` exactly once, with one template `t` as both
template and parent (subject = issuer), the public key of the generated key as
the key to certify and the generated key as the signing key; the key usage of
`t` is digital signature plus key encipherment and nothing else (bits 0 and 2),
its extended key usage is server authentication alone, and its DNS names
contain "localhost", the default of the echo program's `--domain` flag. -/
theorem certificate_shape (env : certgen.Env) (key : certgen.rsa.PrivateKey)
    (hk : env.GenerateKey = Except.ok key) :
    ∃ t : certgen.x509.Certificate,
      certgen.createCalls (certgen.main env).trace = [(t, t, key.PublicKey, key)] ∧
      t.KeyUsage
        = certgen.x509.KeyUsageDigitalSignature ||| certgen.x509.KeyUsageKeyEncipherment ∧
      (∀ i, t.KeyUsage.testBit i = true ↔ i = 0 ∨ i = 2) ∧
      t.ExtKeyUsage = [certgen.x509.ExtKeyUsage.ExtKeyUsageServerAuth] ∧
      main.flagDefaults.domain = lit "localhost" ∧
      main.flagDefaults.domain ∈ t.DNSNames := by
  refine ⟨certgen.main.template (env.Now 0) (env.Now 1), ?_, rfl, ?_, rfl, rfl, ?_⟩
  · obtain ⟨g, now, cc, cr, en, cl, ma⟩ := env
    simp only at hk
    subst hk
    simp only [certgen.main]
    cases cc (certgen.main.template (now 0) (now 1)) (certgen.main.template (now 0) (now 1))
        key.PublicKey key with
    | error e => rfl
    | ok der =>
      simp only []
      cases h1 : cr (lit "../cert.pem") <;> cases h2 : en (lit "../cert.pem") (lit "CERTIFICATE") der <;>
        cases h3 : cl (lit "../cert.pem") <;> cases h4 : cr (lit "../key.pem") <;>
        cases h5 : en (lit "../key.pem") (lit "RSA PRIVATE KEY") (ma key) <;>
        cases h6 : cl (lit "../key.pem") <;>
        simp [h1, h2, h3, h4, h5, h6, Run.emit, Run.ret, certgen.log.Fatalf, os.Exit, certgen.createCalls]
  · intro i
    show Nat.testBit 5 i = true ↔ _
    rcases i with _ | _ | _ | i
    · decide
    · decide
    · decide
    · have : Nat.testBit 5 (i + 3) = false :=
        Nat.testBit_lt_two_pow (by
          have : 2 ^ 3 ≤ 2 ^ (i + 3) := Nat.pow_le_pow_right (by decide) (by omega)
          omega)
      simp [this]
  · exact List.mem_cons_self _ _

/-- The generator's call, for a concrete key. -/
theorem certificate_shape_witness :
    ∃ t : certgen.x509.Certificate,
      certgen.createCalls (certgen.main certgen.okEnv).trace
        = [(t, t, certgen.rsa.PublicKey.mk 3233 17,
            certgen.rsa.PrivateKey.mk (certgen.rsa.PublicKey.mk 3233 17) 413)] :=
  (certificate_shape certgen.okEnv
    (certgen.rsa.PrivateKey.mk (certgen.rsa.PublicKey.mk 3233 17) 413) rfl).imp
    (fun _ h => h.1)

/-! ### `fmt.Fprintf` without operands and `checkErr` -/

/-- Go `parsenum` returns a part of the segment it was given. -/
theorem fmt.parsenumLoop_length (s : Bytes) (num : Nat) (isnum : Bool) :
    (fmt.parsenumLoop s num isnum).2.2.length ≤ s.length := by
  induction s generalizing num isnum with
  | nil => simp [fmt.parsenumLoop]
  | cons c s ih =>
    simp only [fmt.parsenumLoop]
    split
    · split
      · simp
      · exact Nat.le_succ_of_le (ih _ _)
    · simp

/-- Go `argNumber` does not lengthen the rest of the format. -/
theorem fmt.argNumber_length (st : fmt.VerbState) (numArgs : Nat) :
    (fmt.argNumber st numArgs).rest.length ≤ st.rest.length := by
  unfold fmt.argNumber
  split
  · simp only []
    split <;> simp
  · simp

/-- The width part does not lengthen the rest of the format. -/
theorem fmt.width_length (st : fmt.VerbState) :
    (fmt.width st).2.rest.length ≤ st.rest.length := by
  unfold fmt.width
  split
  · simp_all
  · exact fmt.parsenumLoop_length _ _ _

/-- The precision part does not lengthen the rest of the format. -/
theorem fmt.precision_length (st : fmt.VerbState) :
    (fmt.precision st).2.rest.length ≤ st.rest.length := by
  unfold fmt.precision
  split
  · rename_i s hs
    have h1 := fmt.argNumber_length
      (fmt.VerbState.mk st.argNum s st.afterIndex (if st.afterIndex then false else st.goodArgNum)) 0
    simp only [hs, List.length_cons] at h1 ⊢
    split
    · rename_i s1 hs1
      simp only [hs1, List.length_cons] at h1
      simp only []
      omega
    · have h2 := fmt.parsenumLoop_length
        (fmt.argNumber (fmt.VerbState.mk st.argNum s st.afterIndex
          (if st.afterIndex then false else st.goodArgNum)) 0).rest 0 false
      exact Nat.le_trans h2 (Nat.le_trans h1 (Nat.le_succ _))
  · simp

/-- Enough fuel gives the result: any two amounts of fuel above the length of
the format give the same output, since every turn of the loop consumes the `%`
it stopped at. -/
theorem fmt.doPrintf_fuel (n m : Nat) (format : Bytes)
    (hn : format.length < n) (hm : format.length < m) :
    fmt.doPrintf n format = fmt.doPrintf m format := by
  induction n generalizing m format with
  | zero => omega
  | succ n ih =>
    cases m with
    | zero => omega
    | succ m =>
      simp only [fmt.doPrintf]
      have hd : (format.dropWhile (fun c => c != 37)).length ≤ format.length :=
        (List.dropWhile_suffix _).length_le
      split
      · rfl
      · rename_i s hs
        rw [hs] at hd
        simp only [List.length_cons] at hd
        have h0 : (s.dropWhile fmt.isFlag).length ≤ s.length :=
          (List.dropWhile_suffix _).length_le
        have h1 := fmt.argNumber_length (fmt.VerbState.mk 0 (s.dropWhile fmt.isFlag) false true) 0
        have h2 := fmt.width_length
          (fmt.argNumber (fmt.VerbState.mk 0 (s.dropWhile fmt.isFlag) false true) 0)
        have h3 := fmt.precision_length (fmt.width
          (fmt.argNumber (fmt.VerbState.mk 0 (s.dropWhile fmt.isFlag) false true) 0)).2
        simp only [] at h1
        generalize (fmt.precision (fmt.width
          (fmt.argNumber (fmt.VerbState.mk 0 (s.dropWhile fmt.isFlag) false true) 0)).2).2 = st2
          at h3 ⊢
        have h4 : (if (!st2.afterIndex) = true then fmt.argNumber st2 0 else st2).rest.length
            ≤ st2.rest.length := by
          split
          · exact fmt.argNumber_length _ _
          · exact Nat.le_refl _
        generalize (if (!st2.afterIndex) = true then fmt.argNumber st2 0 else st2) = st3 at h4 ⊢
        split
        · rfl
        · rename_i c t hct
          rw [hct] at h4
          congr 1
          apply ih
          · exact Nat.lt_of_le_of_lt (List.drop_suffix _ _).length_le
              (by simp only [List.length_cons] at h4 ⊢; omega)
          · exact Nat.lt_of_le_of_lt (List.drop_suffix _ _).length_le
              (by simp only [List.length_cons] at h4 ⊢; omega)

/-- A format without `%` is written as it is. -/
theorem fmt.Sprintf_of_no_percent (format : Bytes) (h : ∀ c ∈ format, c ≠ 37) :
    fmt.Sprintf format = format := by
  have h1 : format.dropWhile (fun c => c != 37) = [] := by
    rw [List.dropWhile_eq_nil_iff]
    intro c hc
    simpa using h c hc
  have h2 : format.takeWhile (fun c => c != 37) = format := by
    rw [List.takeWhile_eq_self_iff]
    intro c hc
    simpa using h c hc
  simp only [fmt.Sprintf, fmt.doPrintf, h1, h2]

/-- With a nil error `checkErr` returns and writes nothing. -/
theorem checkErr_nil : checkErr none = Run.mk [] Outcome.returned := rfl

/-- With a non-nil error `checkErr` makes one write to standard error, of the
error text taken as a format string, and exits with status 1. -/
theorem checkErr_exits (e : GoError) :
    checkErr (some e) = Run.mk [Event.stderr (fmt.Sprintf e.Error)] (Outcome.exited 1) := rfl

/-- An error text without `%` reaches standard error unchanged. -/
theorem checkErr_plain (e : GoError) (h : ∀ c ∈ e.Error, c ≠ 37) :
    checkErr (some e) = Run.mk [Event.stderr e.Error] (Outcome.exited 1) := by
  rw [checkErr_exits, fmt.Sprintf_of_no_percent _ h]

/-- A `%`-free error text, as the default flags produce it. -/
theorem checkErr_plain_witness :
    checkErr (some (GoError.mk (lit "open : no such file or directory")))
      = Run.mk [Event.stderr (lit "open : no such file or directory")] (Outcome.exited 1) :=
  checkErr_plain (GoError.mk (lit "open : no such file or directory")) (by decide)

/-- C10, where the code departs from it: for the error text
"open hi%d: no such file or directory" (what loading a certificate file named
`hi%d` that does not exist reports), `checkErr` does not write the text as it
is: the `%d` is taken as a verb with no operand and comes out as
`%!d(MISSING)`. The process still exits with status 1. -/
theorem checkErr_format_verb :
    checkErr (some (GoError.mk (lit "open hi%d: no such file or directory")))
      = Run.mk [Event.stderr (lit "open hi%!d(MISSING): no such file or directory")]
          (Outcome.exited 1) ∧
    lit "open hi%!d(MISSING): no such file or directory"
      ≠ lit "open hi%d: no such file or directory" := by
  decide

end Echo
